import Mathlib

/-!
The UDP session server of pyrite-go (`server.go`).

A shallow embedding of `server.go` and the properties of its session table,
sequence counters, pending-acknowledgment slots, router and idle sweep.

Conventions of the embedding

* Go maps are association lists (`GoMap`) read by `get`, written by `set`
  (in place when the key is present, appended otherwise) and shrunk by
  `delete`.  A `*ClientData` stored in `cdata` is updated by writing the
  changed record back under its key.
* Go `int` / `int64` values (sequence counters, microsecond timestamps) are
  integers in `[-2^63, 2^63)`; every addition and subtraction of the source is
  followed by `wrap64`, the two's complement wrap-around of the 64 bit
  machine.
* A nil pointer dereference (`s.cdata[session].X` on a missing key) is the
  result `Except.error Stop.nilPointer`.
* The transport is the log `sent` of `WriteToUDP` calls; channels are numbered
  by allocation order and every send / close on them is appended to `chanLog`.
  Channels are unbuffered: a send completes only when a goroutine is parked in
  a receive on the channel (`parked`), it panics on a closed channel, and it
  never returns otherwise (`Stop.blocked`).
* The codec (`ToBytes`, `CastToPrtPackage`, `MAX_TRANSMIT_SIZE`) lives in another
  file of the package and is a parameter (`Codec`).
* The goroutines are interleaved explicitly: `process` runs on one datagram at
  a time, and the datagrams that arrive while `Promise` blocks are an argument
  of `Promise`.  `processAck` gives up the lock between its lookup, its send
  and its delete; what the other goroutines do to the server in these two gaps
  is an argument of `processAck`.
-/

namespace Pyrite

/-! ## Go maps -/

/-- Go map as an association list. -/
abbrev GoMap (K V : Type) := List (K × V)

namespace GoMap

variable {K V : Type} [DecidableEq K]

/-- Reading `m[k]` with the comma-ok result folded into an `Option`. -/
def get : GoMap K V → K → Option V
  | [], _ => none
  | (k', v) :: rest, k => if k' = k then some v else get rest k

/-- Assignment `m[k] = v`. -/
def set : GoMap K V → K → V → GoMap K V
  | [], k, v => [(k, v)]
  | (k', v') :: rest, k, v => if k' = k then (k, v) :: rest else (k', v') :: set rest k v

/-- Builtin `delete(m, k)`. -/
def delete : GoMap K V → K → GoMap K V
  | [], _ => []
  | (k', v) :: rest, k => if k' = k then delete rest k else (k', v) :: delete rest k

/-- Keys in iteration order. -/
def keys (m : GoMap K V) : List K := m.map Prod.fst

end GoMap

/-! ## Data model -/

/-- Datagram payload. -/
abbrev Bytes := List Nat

/-- Go `net.UDPAddr`. -/
structure UDPAddr where
  IP : List Nat
  Port : Int
  Zone : String
  deriving DecidableEq, Repr

/-- Protocol message `PrtPackage` (fields as used by `server.go`). -/
structure PrtPackage where
  Session : String
  Identifier : String
  sequence : Int
  Body : String
  deriving DecidableEq, Repr

/-- Channel of type `chan *PrtPackage`, named by its allocation number. -/
abbrev Chan := Nat

/-- Effects on channels performed by the server. -/
inductive ChanEvent where
  | send (ch : Chan) (p : PrtPackage)
  | close (ch : Chan)
  deriving DecidableEq, Repr

/-- Go `ClientData`. -/
structure ClientData where
  Addr : UDPAddr
  LastAccept : Int
  Sequence : Int
  SequenceBuff : GoMap Int Chan
  deriving DecidableEq, Repr

/-- Go `Server`, with the effects of the listener and of the channels made explicit. -/
structure Server where
  port : Int
  sessionlen : Int
  maxLifeTime : Int
  router : GoMap String (PrtPackage → String)
  timeout : Int
  cdata : GoMap String ClientData
  /-- Datagrams handed to `listener.WriteToUDP`, oldest first. -/
  sent : List (Bytes × UDPAddr)
  /-- Number of channels created by `make(chan *PrtPackage)` so far. -/
  chans : Nat
  /-- Sends and closes performed on channels, oldest first. -/
  chanLog : List ChanEvent
  /-- Open channels on which a goroutine started by `Promise` is parked in a
  receive, one entry per goroutine. -/
  parked : List Chan

/-- Ways a call stops without returning. -/
inductive Stop where
  /-- Runtime panic: nil pointer dereference. -/
  | nilPointer
  /-- Runtime panic: send on a closed channel. -/
  | closedChannel
  /-- The loop of `GenerateSession` used up every token drawn without leaving. -/
  | spin
  /-- The goroutine is parked for ever in a channel send that nobody receives;
  the rest of the server goes on from the state `s`. -/
  | blocked (s : Server)

/-- Errors returned by `Tell` and `Promise`. -/
inductive Error where
  | ErrContentOverflowed
  | ErrTimeout
  deriving DecidableEq, Repr

/-- The codec of the package: declared outside `server.go`. -/
structure Codec where
  MAX_TRANSMIT_SIZE : Int
  ToBytes : PrtPackage → Bytes
  CastToPrtPackage : Bytes → Option PrtPackage

/-- One datagram handed to `process`, with the clock reading and the random
tokens (`utils.RandomString` results, in order) that this run observes. -/
structure Inbound where
  addr : UDPAddr
  recv : Bytes
  now : Int
  tokens : List String

/-! ## Machine integers -/

/-- Result of a 64 bit signed operation whose exact value is `x`: the integer
of `[-2^63, 2^63)` congruent to `x` modulo `2^64`. -/
def wrap64 (x : Int) : Int :=
  (x + 9223372036854775808) % 18446744073709551616 - 9223372036854775808

/-- Values of a Go `int` / `int64`. -/
def isInt64 (x : Int) : Prop :=
  -9223372036854775808 ≤ x ∧ x < 9223372036854775808

instance isInt64.decidable (x : Int) : Decidable (isInt64 x) := by
  unfold isInt64
  infer_instance

/-! ## Operations of `server.go` -/

/-- Go `NewServer` (the error result is always nil). -/
def NewServer (port : Int) (maxTime : Int) (timeout : Int) : Server :=
  { port := port
    sessionlen := 16
    maxLifeTime := maxTime
    router := []
    timeout := timeout
    cdata := []
    sent := []
    chans := 0
    chanLog := []
    parked := [] }

/-- Scan of `strings.Index`: position of the first suffix of the text that
starts with `substr`, counted from `i`, or `-1`. -/
def strings.indexFrom (substr : List Char) : List Char → Nat → Int
  | [], i => if substr.isPrefixOf [] then (i : Int) else -1
  | ch :: rest, i =>
    if substr.isPrefixOf (ch :: rest) then (i : Int) else strings.indexFrom substr rest (i + 1)

/-- Go `strings.Index` (positions counted in characters; the server only
compares the result with `0`). -/
def strings.Index (s substr : String) : Int :=
  strings.indexFrom substr.toList s.toList 0

/-- Go `Server.AddRouter`. -/
def AddRouter (s : Server) (identifier : String) (controller : PrtPackage → String) :
    Server × Bool :=
  if strings.Index identifier "prt-" = 0 then
    (s, false)
  else
    ({ s with router := s.router.set identifier controller }, true)

/-- Go `Server.GenerateSession`: the first drawn token that is not a key of
`cdata`. -/
def GenerateSession (s : Server) : List String → Except Stop String
  | [] => .error .spin
  | ret :: more =>
    match s.cdata.get ret with
    | none => .ok ret
    | some _ => GenerateSession s more

/-- Go `Server.getSequence`. -/
def getSequence (s : Server) (session : String) : Except Stop (Int × Server) :=
  match s.cdata.get session with
  | none => .error .nilPointer
  | some cd =>
    let cd1 : ClientData := { cd with Sequence := wrap64 (cd.Sequence + 1) }
    .ok (wrap64 (cd1.Sequence - 1), { s with cdata := s.cdata.set session cd1 })

/-- Go `Server.Tell`. -/
def Tell (c : Codec) (s : Server) (session identifier body : String) :
    Except Stop (Server × Option Error) :=
  let rBytes := c.ToBytes { Session := session, Identifier := identifier, sequence := -1, Body := body }
  if (rBytes.length : Int) > c.MAX_TRANSMIT_SIZE then
    .ok (s, some .ErrContentOverflowed)
  else
    match s.cdata.get session with
    | none => .error .nilPointer
    | some cd => .ok ({ s with sent := s.sent ++ [(rBytes, cd.Addr)] }, none)

/-- Whether channel `ch` has been closed according to the log. -/
def closed : List ChanEvent → Chan → Bool
  | [], _ => false
  | .close ch1 :: rest, ch => if ch1 = ch then true else closed rest ch
  | .send _ _ :: rest, ch => closed rest ch

/-- Go `Server.processAck`.  The lock is held for the lookup (lines 135-137)
and for the delete (lines 144-146) only: `gap1` is what the other goroutines do
to the server between the lookup and the send, `gap2` what they do between the
close and the delete.  The send `ch <- response` (line 142) completes when a
goroutine is parked in a receive on `ch` (a channel with a parked receiver is
open; the close of line 143 releases every other receiver), panics on a closed
channel, and never returns otherwise. -/
def processAck (s : Server) (response : PrtPackage) (gap1 gap2 : Server → Server) :
    Except Stop Server :=
  let session := response.Session
  match s.cdata.get session with
  | none => .error .nilPointer
  | some cd =>
    match cd.SequenceBuff.get response.sequence with
    | none => .ok s
    | some ch =>
      let s1 := gap1 s
      if ch ∈ s1.parked then
        let s2 : Server :=
          gap2 { s1 with
                 chanLog := s1.chanLog ++ [.send ch response, .close ch]
                 parked := s1.parked.filter (fun ch1 => ch1 ≠ ch) }
        match s2.cdata.get session with
        | none => .error .nilPointer
        | some cd1 =>
          .ok { s2 with
                cdata := s2.cdata.set session
                  { cd1 with SequenceBuff := cd1.SequenceBuff.delete response.sequence } }
      else if closed s1.chanLog ch then
        .error .closedChannel
      else
        .error (.blocked s1)

/-- Lines 168-190 of `Server.process`: routing of the decoded message `prtPack`
once the active session `nowSession` is fixed.  No other goroutine runs inside
the call (both gaps of `processAck` are `id`). -/
def process.dispatch (c : Codec) (s : Server) (prtPack : PrtPackage) (nowSession : String) :
    Except Stop Server :=
  if prtPack.Identifier = "prt-ack" then
    processAck s prtPack id id
  else
    match s.router.get prtPack.Identifier with
    | none => .ok s
    | some f =>
      let resp := f prtPack
      if resp = "" then
        .ok s
      else
        match s.cdata.get nowSession with
        | none => .error .nilPointer
        | some cd =>
          .ok { s with
                sent := s.sent ++
                  [(c.ToBytes { Session := nowSession, Identifier := "prt-ack",
                                sequence := prtPack.sequence, Body := resp }, cd.Addr)] }

/-- Go `Server.process` (lines 149-166, then `process.dispatch`); `now` is the
reading of `time.Now().UnixMicro()` and `tokens` the results of
`utils.RandomString` seen by `GenerateSession`. -/
def process (c : Codec) (s : Server) (addr : UDPAddr) (recv : Bytes) (now : Int)
    (tokens : List String) : Except Stop Server :=
  match c.CastToPrtPackage recv with
  | none => .ok s
  | some prtPack =>
    if prtPack.Session = "" then
      match GenerateSession s tokens with
      | .error e => .error e
      | .ok nowSession =>
        process.dispatch c
          { s with
            cdata := s.cdata.set nowSession
              { Addr := addr, LastAccept := now, Sequence := 0, SequenceBuff := [] } }
          prtPack nowSession
    else
      process.dispatch c s prtPack prtPack.Session

/-- First value sent on channel `ch` according to the log. -/
def received : List ChanEvent → Chan → Option PrtPackage
  | [], _ => none
  | .send ch1 p :: rest, ch => if ch1 = ch then some p else received rest ch
  | .close _ :: rest, ch => received rest ch

/-- Channel on which the goroutine of `Promise` parks: the value of
`s.cdata[session].SequenceBuff[s.cdata[session].Sequence]`.  `none` when the
expression panics (recovered by the goroutine) or yields a nil channel; the
goroutine then never reports. -/
def Promise.waiter (s : Server) (session : String) : Option Chan :=
  match s.cdata.get session with
  | none => none
  | some cd => cd.SequenceBuff.get cd.Sequence

/-- Blocking part of `Promise` (`ok := <-ch`): datagrams are processed one by one
while the timer runs; the call wakes up with the response as soon as one has
been sent on its channel, and with nothing when the timer fires first.  A
`process` that hangs in a send leaves the call waiting; a panic ends the
program. -/
def Promise.wait (c : Codec) (s : Server) (w : Option Chan) :
    List Inbound → Except Stop (Server × Option PrtPackage)
  | [] => .ok (s, none)
  | a :: more =>
    match process c s a.addr a.recv a.now a.tokens with
    | .error (.blocked s1) => Promise.wait c s1 w more
    | .error e => .error e
    | .ok s1 =>
      match w.bind (received s1.chanLog) with
      | some response => .ok (s1, some response)
      | none => Promise.wait c s1 w more

/-- Go `Server.Promise`; `arrivals` are the datagrams processed between the
registration of the channel and the expiry of the timer.  The goroutine of
line 119 runs as soon as it is started and parks on the channel it reads at
line 121; it stays parked when the call returns on a timeout. -/
def Promise (c : Codec) (s : Server) (session identifier body : String)
    (arrivals : List Inbound) : Except Stop (Server × String × Option Error) :=
  match getSequence s session with
  | .error e => .error e
  | .ok (sequence, s1) =>
    let req : PrtPackage :=
      { Session := session, Identifier := identifier, sequence := sequence, Body := body }
    let reqBytes := c.ToBytes req
    if (reqBytes.length : Int) > c.MAX_TRANSMIT_SIZE then
      .ok (s1, "", some .ErrContentOverflowed)
    else
      match s1.cdata.get session with
      | none => .error .nilPointer
      | some cd =>
        let s2 : Server :=
          { s1 with
            sent := s1.sent ++ [(reqBytes, cd.Addr)]
            chans := s1.chans + 1
            cdata := s1.cdata.set session
              { cd with SequenceBuff := cd.SequenceBuff.set cd.Sequence s1.chans } }
        let w := Promise.waiter s2 session
        let s3 : Server := { s2 with parked := s2.parked ++ w.toList }
        match Promise.wait c s3 w arrivals with
        | .error e => .error e
        | .ok (s3, none) => .ok (s3, "", some .ErrTimeout)
        | .ok (s3, some response) => .ok (s3, response.Body, none)

/-- Body of the `range` loop of `Server.GC` at key `k`: lines 220-222.  The
value tested is the one the map holds for `k` when the loop reaches it; a key
already removed is not visited. -/
def GC.visit (maxLifeTime nowTime : Int) (m : GoMap String ClientData) (k : String) :
    GoMap String ClientData :=
  match m.get k with
  | some v => if wrap64 (nowTime - v.LastAccept) ≥ maxLifeTime then m.delete k else m
  | none => m

/-- One pass of the outer loop of `Server.GC` with clock reading `nowTime`: the
`range` over the keys of `cdata` (lines 218-223). -/
def GC.sweep (s : Server) (nowTime : Int) : Server :=
  { s with cdata := s.cdata.keys.foldl (GC.visit s.maxLifeTime nowTime) s.cdata }

/-- Go `Server.GC`, run for the passes whose clock readings are given. -/
def GC (s : Server) (clock : List Int) : Server :=
  clock.foldl GC.sweep s

/-- Go `getSequence` called `n` times in a row on one session; the values
returned, in call order. -/
def getSequence.times (s : Server) (session : String) : Nat → Except Stop (List Int × Server)
  | 0 => .ok ([], s)
  | n + 1 =>
    match getSequence s session with
    | .error e => .error e
    | .ok (k, s1) =>
      match getSequence.times s1 session n with
      | .error e => .error e
      | .ok (ks, s2) => .ok (k :: ks, s2)

/-! ## A concrete codec and concrete states -/

/-- Length-prefixed encoding of a string. -/
def Wire.encString (s : String) : Bytes :=
  s.length :: s.toList.map Char.toNat

/-- Sign and magnitude encoding of an integer. -/
def Wire.encInt (i : Int) : Bytes :=
  [if i < 0 then 1 else 0, i.natAbs]

/-- Encoder of the concrete codec. -/
def Wire.ToBytes (p : PrtPackage) : Bytes :=
  Wire.encString p.Session ++ Wire.encString p.Identifier ++ Wire.encInt p.sequence ++
    Wire.encString p.Body

/-- Reads one length-prefixed string. -/
def Wire.decString : Bytes → Option (String × Bytes)
  | [] => none
  | n :: rest =>
    if rest.length < n then none
    else some (String.mk ((rest.take n).map Char.ofNat), rest.drop n)

/-- Reads one integer. -/
def Wire.decInt : Bytes → Option (Int × Bytes)
  | sign :: mag :: rest => some (if sign = 0 then (mag : Int) else -(mag : Int), rest)
  | _ => none

/-- Decoder of the concrete codec. -/
def Wire.CastToPrtPackage (b : Bytes) : Option PrtPackage :=
  match Wire.decString b with
  | none => none
  | some (session, b1) =>
    match Wire.decString b1 with
    | none => none
    | some (identifier, b2) =>
      match Wire.decInt b2 with
      | none => none
      | some (sequence, b3) =>
        match Wire.decString b3 with
        | some (body, []) =>
          some { Session := session, Identifier := identifier, sequence := sequence, Body := body }
        | _ => none

/-- A concrete codec with a limit of 64 bytes, for running the server on
concrete datagrams. -/
def Wire.codec : Codec :=
  { MAX_TRANSMIT_SIZE := 64, ToBytes := Wire.ToBytes, CastToPrtPackage := Wire.CastToPrtPackage }

/-- A peer address. -/
def Sample.peer : UDPAddr := { IP := [127, 0, 0, 1], Port := 9000, Zone := "" }

/-- A handler answering every message with `pong`. -/
def Sample.pong : PrtPackage → String := fun _ => "pong"

/-- A server with the handler `ping` registered and no session. -/
def Sample.idle : Server := (AddRouter (NewServer 8080 1000 5) "ping" Sample.pong).1

/-- The server `Sample.idle` after a first datagram (empty session field,
identifier `hello`) from `Sample.peer` at time `0`, the token drawn being `S`. -/
def Sample.opened : Server :=
  { Sample.idle with
    cdata := [("S", { Addr := Sample.peer, LastAccept := 0, Sequence := 0, SequenceBuff := [] })] }

/-- The server `Sample.opened` after `Promise("S", "ping", "hi")` has timed out:
the request with sequence number `0` is sent, the counter of `S` is `1`, the
channel `0` sits under the key `1` of the pending map and the goroutine of the
call is parked on it. -/
def Sample.pending : Server :=
  { Sample.idle with
    cdata := [("S", { Addr := Sample.peer, LastAccept := 0, Sequence := 1,
                      SequenceBuff := [(1, 0)] })]
    sent := [(Wire.ToBytes { Session := "S", Identifier := "ping", sequence := 0, Body := "hi" },
              Sample.peer)]
    chans := 1
    parked := [0] }

/-- An acknowledgment for sequence number `1` of session `S`. -/
def Sample.lateAck : PrtPackage :=
  { Session := "S", Identifier := "prt-ack", sequence := 1, Body := "pong" }

/-- An acknowledgment for sequence number `0` of session `S`. -/
def Sample.ack : PrtPackage :=
  { Session := "S", Identifier := "prt-ack", sequence := 0, Body := "pong" }

/-- A body of seventy characters: with any session and identifier its encoding
exceeds the 64 bytes of `Wire.codec`. -/
def Sample.long : String := String.mk (List.replicate 70 'x')

/-- A first datagram: empty session field, identifier `ping`, sequence number `4`. -/
def Sample.hello : PrtPackage :=
  { Session := "", Identifier := "ping", sequence := 4, Body := "" }

/-- A request `ping` on the existing session `S`. -/
def Sample.again : PrtPackage :=
  { Session := "S", Identifier := "ping", sequence := 1, Body := "" }

/-- An acknowledgment naming a session that is not in the table. -/
def Sample.strayAck : PrtPackage :=
  { Session := "ghost", Identifier := "prt-ack", sequence := 0, Body := "x" }

/-- A request `ping` naming a session that is not in the table. -/
def Sample.strayPing : PrtPackage :=
  { Session := "ghost", Identifier := "ping", sequence := 0, Body := "" }

/-- An acknowledgment with an empty session field. -/
def Sample.blankAck : PrtPackage :=
  { Session := "", Identifier := "prt-ack", sequence := 0, Body := "x" }

/-- The acknowledgment `Sample.ack` arriving from `Sample.peer` at time `1`. -/
def Sample.ackArrival : Inbound :=
  { addr := Sample.peer, recv := Wire.ToBytes Sample.ack, now := 1, tokens := [] }

/-- A server with `maxLifeTime = 1000` holding an idle session `old` (last
activity at `0`) and a recent one `new` (last activity at `600`). -/
def Sample.two : Server :=
  { Sample.idle with
    cdata := [("old", { Addr := Sample.peer, LastAccept := 0, Sequence := 0, SequenceBuff := [] }),
              ("new", { Addr := Sample.peer, LastAccept := 600, Sequence := 0,
                        SequenceBuff := [] })] }

/-- The server `Sample.pending` with nobody parked on the channel `0`: the
goroutine of line 119 has not read its key yet, or has read the key of a later
`Promise` on the same session. -/
def Sample.unattended : Server :=
  { Sample.pending with parked := [] }

/-- Another goroutine running `Server.GC` at a time when session `S` is due. -/
def Sample.evict : Server → Server := fun s => GC.sweep s 5000

/-- A server whose session `S` has the largest `int` as counter. -/
def Sample.brim : Server :=
  { Sample.idle with
    cdata := [("S", { Addr := Sample.peer, LastAccept := 0, Sequence := 9223372036854775807,
                      SequenceBuff := [] })] }

/-- A server with `maxLifeTime = 1000` whose session `S` has the least `int64`
as `LastAccept`. -/
def Sample.ancient : Server :=
  { Sample.idle with
    cdata := [("S", { Addr := Sample.peer, LastAccept := -9223372036854775808, Sequence := 0,
                      SequenceBuff := [] })] }

/-! ## Lemmas on Go maps -/

namespace GoMap

variable {K V : Type} [DecidableEq K]

theorem get_set_self (m : GoMap K V) (k : K) (v : V) : (m.set k v).get k = some v := by
  induction m with
  | nil => simp [set, get]
  | cons e rest ih =>
    obtain ⟨k1, v1⟩ := e
    by_cases h : k1 = k
    · simp [set, get, h]
    · simp [set, get, h, ih]

theorem get_set_ne (m : GoMap K V) (k k2 : K) (v : V) (h2 : k2 ≠ k) :
    (m.set k v).get k2 = m.get k2 := by
  induction m with
  | nil => simp [set, get, Ne.symm h2]
  | cons e rest ih =>
    obtain ⟨k1, v1⟩ := e
    by_cases h : k1 = k
    · subst h
      simp [set, get, Ne.symm h2]
    · by_cases h3 : k1 = k2
      · subst h3
        simp [set, get, h]
      · simp [set, get, h, h3, ih]

theorem get_delete_self (m : GoMap K V) (k : K) : (m.delete k).get k = none := by
  induction m with
  | nil => simp [delete, get]
  | cons e rest ih =>
    obtain ⟨k1, v1⟩ := e
    by_cases h : k1 = k
    · simp [delete, h, ih]
    · simp [delete, get, h, ih]

theorem get_delete_ne (m : GoMap K V) (k k2 : K) (h2 : k2 ≠ k) :
    (m.delete k).get k2 = m.get k2 := by
  induction m with
  | nil => simp [delete, get]
  | cons e rest ih =>
    obtain ⟨k1, v1⟩ := e
    by_cases h : k1 = k
    · subst h
      simp [delete, get, Ne.symm h2, ih]
    · by_cases h3 : k1 = k2
      · subst h3
        simp [delete, get, h]
      · simp [delete, get, h, h3, ih]

theorem mem_keys_of_get (m : GoMap K V) (k : K) (v : V) (h : m.get k = some v) :
    k ∈ m.keys := by
  induction m with
  | nil => simp [get] at h
  | cons e rest ih =>
    obtain ⟨k1, v1⟩ := e
    by_cases h1 : k1 = k
    · simp [keys, h1]
    · simp only [get, h1, if_false] at h
      have := ih h
      simp only [keys] at this
      simp [keys, this]

end GoMap


/-! ## The concrete states are states of the server -/

/-- The state `Sample.opened` is the result of `process` on a first datagram. -/
theorem Sample.opened_reached :
    process Wire.codec Sample.idle Sample.peer
        (Wire.ToBytes { Session := "", Identifier := "hello", sequence := -1, Body := "" })
        0 ["S"] =
      .ok Sample.opened :=
  rfl

/-- The state `Sample.pending` is the result of an unanswered `Promise`. -/
theorem Sample.pending_reached :
    Promise Wire.codec Sample.opened "S" "ping" "hi" [] =
      .ok (Sample.pending, "", some Error.ErrTimeout) :=
  rfl

/-- The state `Sample.two` is the result of two first datagrams, received at
times `0` and `600`. -/
theorem Sample.two_reached :
    (process Wire.codec Sample.idle Sample.peer
        (Wire.ToBytes { Session := "", Identifier := "hello", sequence := -1, Body := "" })
        0 ["old"]).bind
      (fun s1 => process Wire.codec s1 Sample.peer
        (Wire.ToBytes { Session := "", Identifier := "hello", sequence := -1, Body := "" })
        600 ["old", "new"]) =
      .ok Sample.two :=
  rfl

/-! ## Lemmas on machine integers -/

theorem wrap64_eq (x : Int) (h : isInt64 x) : wrap64 x = x := by
  unfold isInt64 at h
  unfold wrap64
  omega

theorem wrap64_isInt64 (x : Int) : isInt64 (wrap64 x) := by
  unfold isInt64 wrap64
  omega

theorem wrap64_succ_pred (k : Int) (h : isInt64 k) : wrap64 (wrap64 (k + 1) - 1) = k := by
  unfold isInt64 at h
  unfold wrap64
  omega

/-! ## Acknowledgments (`processAck`) -/

/-- C3 (amended): for an existing session `S = r.Session` and sequence number
`n = r.sequence`: without a slot for `n`, `processAck` returns the server unchanged,
whatever the other goroutines do; with a slot `ch` on which a goroutine is
parked, and with no other goroutine touching the server inside the call, it sends the acknowledgment on `ch` exactly once (and closes `ch`), removes
the entry for `n` from the pending map of `S` and nothing else (other entries,
other fields of `S`, other sessions, router and transport unchanged); in both cases
a second `processAck` with the same acknowledgment changes nothing. -/
theorem processAck_resolves_once (s : Server) (r : PrtPackage) (cd : ClientData)
    (hS : s.cdata.get r.Session = some cd) :
    (cd.SequenceBuff.get r.sequence = none →
      ∀ gap1 gap2 : Server → Server, processAck s r gap1 gap2 = .ok s) ∧
    (∀ ch, cd.SequenceBuff.get r.sequence = some ch → ch ∈ s.parked →
      ∃ s1, processAck s r id id = .ok s1 ∧
        s1.chanLog = s.chanLog ++ [ChanEvent.send ch r, ChanEvent.close ch] ∧
        s1.parked = s.parked.filter (fun ch1 => ch1 ≠ ch) ∧
        (∃ cd1, s1.cdata.get r.Session = some cd1 ∧
          cd1 = { cd with SequenceBuff := cd.SequenceBuff.delete r.sequence } ∧
          cd1.SequenceBuff.get r.sequence = none ∧
          ∀ n, n ≠ r.sequence → cd1.SequenceBuff.get n = cd.SequenceBuff.get n) ∧
        (∀ S, S ≠ r.Session → s1.cdata.get S = s.cdata.get S) ∧
        s1.sent = s.sent ∧ s1.chans = s.chans ∧ s1.router = s.router ∧
        ∀ gap1 gap2 : Server → Server, processAck s1 r gap1 gap2 = .ok s1) := by
  constructor
  · intro h gap1 gap2
    simp [processAck, hS, h]
  · intro ch h hpark
    refine ⟨{ s with
        chanLog := s.chanLog ++ [ChanEvent.send ch r, ChanEvent.close ch]
        parked := s.parked.filter (fun ch1 => ch1 ≠ ch)
        cdata := s.cdata.set r.Session
          { cd with SequenceBuff := cd.SequenceBuff.delete r.sequence } },
      ?_, rfl, rfl, ⟨_, GoMap.get_set_self _ _ _, rfl, ?_, ?_⟩, ?_, rfl, rfl, rfl, ?_⟩
    · simp [processAck, hS, h, hpark]
    · exact GoMap.get_delete_self _ _
    · intro n hn
      exact GoMap.get_delete_ne _ _ _ hn
    · intro S hne
      exact GoMap.get_set_ne _ _ _ _ hne
    · intro gap1 gap2
      simp [processAck, GoMap.get_set_self, GoMap.get_delete_self]

/-- Witness of C3 (amended) on a session holding one pending slot. -/
theorem processAck_resolves_once_witness :
    Sample.pending.cdata.get Sample.lateAck.Session =
        some { Addr := Sample.peer, LastAccept := 0, Sequence := 1, SequenceBuff := [(1, 0)] } ∧
      ∃ s1, processAck Sample.pending Sample.lateAck id id = .ok s1 ∧
        s1.chanLog = [ChanEvent.send 0 Sample.lateAck, ChanEvent.close 0] ∧
        (s1.cdata.get "S").map ClientData.SequenceBuff = some [] :=
  ⟨by decide, by
    obtain ⟨s1, h1, h2, -, ⟨cd1, h3, h4, -⟩, -⟩ :=
      (processAck_resolves_once Sample.pending Sample.lateAck
        { Addr := Sample.peer, LastAccept := 0, Sequence := 1, SequenceBuff := [(1, 0)] }
        (by decide)).2 0 (by decide) (by decide)
    refine ⟨s1, h1, h2, ?_⟩
    rw [show s1.cdata.get "S" = some cd1 from h3, h4]
    rfl⟩

/-- C3 fails as stated: the session `S` holds the slot `1 ↦ channel 0`.  With
nobody parked on the channel, `processAck` hangs in the send of line 142 and the
entry stays in the pending map; with the waiter parked but `Server.GC` removing
`S` between the close and the delete, line 145 dereferences a nil pointer. -/
theorem processAck_needs_waiter :
    Sample.unattended.cdata.get Sample.lateAck.Session =
        some { Addr := Sample.peer, LastAccept := 0, Sequence := 1, SequenceBuff := [(1, 0)] } ∧
      processAck Sample.unattended Sample.lateAck id id =
        .error (Stop.blocked Sample.unattended) ∧
      processAck Sample.pending Sample.lateAck id Sample.evict = .error Stop.nilPointer :=
  ⟨by decide, rfl, rfl⟩


/-! ## Sessions: creation and what a datagram leaves alone -/

theorem GenerateSession_fresh (s : Server) (tokens : List String) (sid : String)
    (h : GenerateSession s tokens = .ok sid) : s.cdata.get sid = none := by
  induction tokens with
  | nil => simp [GenerateSession] at h
  | cons t more ih =>
    cases ht : s.cdata.get t with
    | none =>
      simp only [GenerateSession, ht] at h
      cases h
      exact ht
    | some cd =>
      simp only [GenerateSession, ht] at h
      exact ih h

/-- The result of `processAck` when nothing interferes, case by case. -/
theorem processAck_cases (s s1 : Server) (r : PrtPackage) (h : processAck s r id id = .ok s1) :
    s1 = s ∨
    ∃ cd ch, s.cdata.get r.Session = some cd ∧
      s1 = { s with
             chanLog := s.chanLog ++ [ChanEvent.send ch r, ChanEvent.close ch]
             parked := s.parked.filter (fun ch1 => ch1 ≠ ch)
             cdata := s.cdata.set r.Session
               { cd with SequenceBuff := cd.SequenceBuff.delete r.sequence } } := by
  cases hr : s.cdata.get r.Session with
  | none => simp [processAck, hr] at h
  | some cdr =>
    cases hc : cdr.SequenceBuff.get r.sequence with
    | none =>
      simp [processAck, hr, hc] at h
      exact Or.inl h.symm
    | some ch =>
      by_cases hp : ch ∈ s.parked
      · simp only [processAck, hr, hc, hp, if_true, id] at h
        injection h with h
        exact Or.inr ⟨cdr, ch, rfl, h.symm⟩
      · by_cases hcl : closed s.chanLog ch = true
        · simp [processAck, hr, hc, hcl, hp] at h
        · simp [processAck, hr, hc, hcl, hp] at h

theorem processAck_keeps (s s1 : Server) (r : PrtPackage) (h : processAck s r id id = .ok s1)
    (S : String) (cd : ClientData) (hS : s.cdata.get S = some cd) :
    ∃ cd1, s1.cdata.get S = some cd1 ∧ cd1.Addr = cd.Addr ∧
      cd1.LastAccept = cd.LastAccept ∧ cd1.Sequence = cd.Sequence := by
  rcases processAck_cases s s1 r h with h1 | ⟨cdr, ch, hr, h1⟩
  · subst h1
    exact ⟨cd, hS, rfl, rfl, rfl⟩
  · subst h1
    by_cases hEq : S = r.Session
    · subst hEq
      rw [hS] at hr
      cases hr
      exact ⟨_, GoMap.get_set_self _ _ _, rfl, rfl, rfl⟩
    · exact ⟨cd, by simpa [GoMap.get_set_ne _ _ _ _ hEq] using hS, rfl, rfl, rfl⟩

theorem dispatch_keeps (c : Codec) (s s1 : Server) (m : PrtPackage) (sid : String)
    (h : process.dispatch c s m sid = .ok s1)
    (S : String) (cd : ClientData) (hS : s.cdata.get S = some cd) :
    ∃ cd1, s1.cdata.get S = some cd1 ∧ cd1.Addr = cd.Addr ∧
      cd1.LastAccept = cd.LastAccept ∧ cd1.Sequence = cd.Sequence := by
  by_cases hack : m.Identifier = "prt-ack"
  · simp only [process.dispatch, hack, if_true] at h
    exact processAck_keeps s s1 m h S cd hS
  · cases hr : s.router.get m.Identifier with
    | none =>
      simp only [process.dispatch, hack, hr, if_false] at h
      cases h
      exact ⟨cd, hS, rfl, rfl, rfl⟩
    | some f =>
      by_cases hresp : f m = ""
      · simp only [process.dispatch, hack, hr, hresp, if_false, if_true] at h
        cases h
        exact ⟨cd, hS, rfl, rfl, rfl⟩
      · cases hc : s.cdata.get sid with
        | none => simp [process.dispatch, hack, hr, hresp, hc] at h
        | some cds =>
          simp only [process.dispatch, hack, hr, hresp, hc, if_false] at h
          cases h
          exact ⟨cd, hS, rfl, rfl, rfl⟩

/-- A session created by `process` starts with the sender as address, the time
of receipt as `LastAccept` and the counter `0`. -/
theorem process_created (c : Codec) (s s1 : Server) (addr : UDPAddr) (recv : Bytes) (now : Int)
    (tokens : List String) (m : PrtPackage) (sid : String)
    (hm : c.CastToPrtPackage recv = some m) (hE : m.Session = "")
    (hg : GenerateSession s tokens = .ok sid)
    (h : process c s addr recv now tokens = .ok s1) :
    ∃ cd1, s1.cdata.get sid = some cd1 ∧ cd1.Addr = addr ∧
      cd1.LastAccept = now ∧ cd1.Sequence = 0 := by
  simp only [process, hm, hE, hg, if_true] at h
  exact dispatch_keeps c _ s1 m sid h sid
    { Addr := addr, LastAccept := now, Sequence := 0, SequenceBuff := [] }
    (GoMap.get_set_self _ _ _)

/-! ## Sequence numbers (`getSequence`) -/

theorem getSequence_ok (s : Server) (S : String) (cd : ClientData)
    (hS : s.cdata.get S = some cd) :
    getSequence s S =
      .ok (wrap64 (wrap64 (cd.Sequence + 1) - 1),
        { s with cdata := s.cdata.set S { cd with Sequence := wrap64 (cd.Sequence + 1) } }) := by
  simp [getSequence, hS]

theorem getSequence_times_from (S : String) (n : Nat) :
    ∀ (s : Server) (cd : ClientData), s.cdata.get S = some cd → isInt64 cd.Sequence →
      cd.Sequence + (n : Int) ≤ 9223372036854775808 →
      ∃ s2, getSequence.times s S n =
        .ok ((List.range n).map (fun (i : Nat) => cd.Sequence + (i : Int)), s2) := by
  induction n with
  | zero =>
    intro s cd _ _ _
    exact ⟨s, by simp [getSequence.times]⟩
  | succ n ih =>
    intro s cd hS hk hn
    have hw : isInt64 (wrap64 (cd.Sequence + 1)) := wrap64_isInt64 _
    have hstep : ∀ i : Nat, i < n → wrap64 (cd.Sequence + 1) + (i : Int) =
        cd.Sequence + ((i + 1 : Nat) : Int) := by
      intro i hi
      unfold isInt64 at hk
      unfold wrap64
      push_cast at hn ⊢
      omega
    have hle : wrap64 (cd.Sequence + 1) + (n : Int) ≤ 9223372036854775808 := by
      unfold isInt64 at hk
      unfold wrap64
      push_cast at hn
      omega
    obtain ⟨s2, h2⟩ := ih
      { s with cdata := s.cdata.set S { cd with Sequence := wrap64 (cd.Sequence + 1) } }
      { cd with Sequence := wrap64 (cd.Sequence + 1) } (GoMap.get_set_self _ _ _) hw hle
    refine ⟨s2, ?_⟩
    simp only [getSequence.times, getSequence_ok s S cd hS, h2, wrap64_succ_pred _ hk]
    rw [List.range_succ_eq_map]
    simp only [List.map_cons, List.map_map]
    congr 2
    simp only [Int.add_zero, List.cons.injEq, List.map_inj_left, Function.comp, true_and,
      Nat.cast_zero]
    intro i hi
    exact hstep i (List.mem_range.1 hi)

/-- C4 (amended): on an existing session `S` whose counter `k` is an `int`,
`getSequence` returns `k` and changes nothing but the counter of `S`; the counter
is left at `k + 1` when `k < 2^63 - 1`.  As long as the values stay below `2^63`,
`n` calls in a row return `k, k + 1, ..., k + n - 1`; on a session just created by
`process` the first `n ≤ 2^63` calls return `0, 1, ..., n - 1`. -/
theorem getSequence_counts :
    (∀ (s : Server) (S : String) (cd : ClientData), s.cdata.get S = some cd →
      isInt64 cd.Sequence →
      (∃ s1, getSequence s S = .ok (cd.Sequence, s1) ∧
        (cd.Sequence < 9223372036854775807 →
          s1.cdata.get S = some { cd with Sequence := cd.Sequence + 1 }) ∧
        (∃ cd1, s1.cdata.get S = some cd1 ∧ cd1.Addr = cd.Addr ∧
          cd1.LastAccept = cd.LastAccept ∧ cd1.SequenceBuff = cd.SequenceBuff) ∧
        (∀ S2, S2 ≠ S → s1.cdata.get S2 = s.cdata.get S2) ∧
        s1.router = s.router ∧ s1.sent = s.sent ∧ s1.chans = s.chans ∧
        s1.chanLog = s.chanLog ∧ s1.parked = s.parked ∧ s1.maxLifeTime = s.maxLifeTime) ∧
      ∀ n : Nat, cd.Sequence + (n : Int) ≤ 9223372036854775808 →
        ∃ s2, getSequence.times s S n =
          .ok ((List.range n).map (fun (i : Nat) => cd.Sequence + (i : Int)), s2)) ∧
    (∀ (c : Codec) (s s1 : Server) (addr : UDPAddr) (recv : Bytes) (now : Int)
        (tokens : List String) (m : PrtPackage) (sid : String),
      c.CastToPrtPackage recv = some m → m.Session = "" →
      GenerateSession s tokens = .ok sid →
      process c s addr recv now tokens = .ok s1 →
      ∀ n : Nat, (n : Int) ≤ 9223372036854775808 →
        ∃ s2, getSequence.times s1 sid n =
          .ok ((List.range n).map (fun (i : Nat) => (i : Int)), s2)) := by
  constructor
  · intro s S cd hS hk
    refine ⟨⟨{ s with
        cdata := s.cdata.set S { cd with Sequence := wrap64 (cd.Sequence + 1) } },
      ?_, ?_, ⟨_, GoMap.get_set_self _ _ _, rfl, rfl, rfl⟩, ?_, rfl, rfl, rfl, rfl, rfl, rfl⟩,
      fun n hn => getSequence_times_from S n s cd hS hk hn⟩
    · rw [getSequence_ok s S cd hS, wrap64_succ_pred _ hk]
    · intro hlt
      have hw : wrap64 (cd.Sequence + 1) = cd.Sequence + 1 := by
        apply wrap64_eq
        unfold isInt64 at hk ⊢
        omega
      show GoMap.get (GoMap.set s.cdata S _) S = _
      rw [GoMap.get_set_self, hw]
    · intro S2 hne
      exact GoMap.get_set_ne _ _ _ _ hne
  · intro c s s1 addr recv now tokens m sid hm hE hg h n hn
    obtain ⟨cd1, hget, -, -, hz⟩ := process_created c s s1 addr recv now tokens m sid hm hE hg h
    have hk : isInt64 cd1.Sequence := by
      rw [hz]
      decide
    obtain ⟨s2, h2⟩ := getSequence_times_from sid n s1 cd1 hget hk (by rw [hz]; omega)
    refine ⟨s2, ?_⟩
    rw [h2, hz]
    simp

/-- Witness of C4 (amended): three calls on the session `S` of `Sample.opened`. -/
theorem getSequence_counts_witness :
    Sample.opened.cdata.get "S" =
        some { Addr := Sample.peer, LastAccept := 0, Sequence := 0, SequenceBuff := [] } ∧
      ∃ s2, getSequence.times Sample.opened "S" 3 = .ok ([0, 1, 2], s2) :=
  ⟨by decide,
    (getSequence_counts.1 Sample.opened "S"
      { Addr := Sample.peer, LastAccept := 0, Sequence := 0, SequenceBuff := [] }
      (by decide) (by decide)).2 3 (by decide)⟩

/-- C4 fails as stated: on a session whose counter is the largest `int`,
`getSequence` returns that value and leaves the counter at `-2^63`, not at
`2^63`; the next call returns `-2^63`, below the value returned before. -/
theorem getSequence_wraps :
    (Sample.brim.cdata.get "S").map ClientData.Sequence = some 9223372036854775807 ∧
      ∃ s1, getSequence Sample.brim "S" = .ok (9223372036854775807, s1) ∧
        (s1.cdata.get "S").map ClientData.Sequence = some (-9223372036854775808) ∧
        (s1.cdata.get "S").map ClientData.Sequence ≠ some (9223372036854775807 + 1) ∧
        ∃ s2, getSequence.times Sample.brim "S" 2 =
          .ok ([9223372036854775807, -9223372036854775808], s2) :=
  ⟨by decide, _, rfl, by decide, by decide, _, rfl⟩


/-! ## Router (`AddRouter`) -/

theorem strings.indexFrom_range (sub : List Char) (l : List Char) :
    ∀ i : Nat, strings.indexFrom sub l i = -1 ∨ (i : Int) ≤ strings.indexFrom sub l i := by
  induction l with
  | nil =>
    intro i
    by_cases h : sub.isPrefixOf [] = true
    · right
      simp [strings.indexFrom, h]
    · left
      simp [strings.indexFrom, h]
  | cons ch rest ih =>
    intro i
    by_cases h : sub.isPrefixOf (ch :: rest) = true
    · right
      simp [strings.indexFrom, h]
    · simp only [strings.indexFrom, h, if_false]
      rcases ih (i + 1) with h1 | h1
      · exact Or.inl h1
      · right
        push_cast at h1
        omega

theorem strings.indexFrom_eq_iff (sub l : List Char) (i : Nat) :
    strings.indexFrom sub l i = (i : Int) ↔ sub.isPrefixOf l = true := by
  cases l with
  | nil =>
    by_cases h : sub.isPrefixOf [] = true
    · rw [strings.indexFrom, if_pos h]
      exact ⟨fun _ => h, fun _ => rfl⟩
    · rw [strings.indexFrom, if_neg h]
      constructor
      · intro h0
        exfalso
        omega
      · intro h0
        exact absurd h0 h
  | cons ch rest =>
    by_cases h : sub.isPrefixOf (ch :: rest) = true
    · rw [strings.indexFrom, if_pos h]
      exact ⟨fun _ => h, fun _ => rfl⟩
    · rw [strings.indexFrom, if_neg h]
      have hr := strings.indexFrom_range sub rest (i + 1)
      constructor
      · intro h0
        rw [h0] at hr
        rcases hr with hr | hr
        · exfalso
          omega
        · exfalso
          have : ((i + 1 : Nat) : Int) = (i : Int) + 1 := by push_cast; rfl
          omega
      · intro h0
        exact absurd h0 h

/-- The test `strings.Index(identifier, "prt-") == 0` holds exactly for the
identifiers that begin with `prt-`. -/
theorem strings.Index_eq_zero_iff (identifier sub : String) :
    strings.Index identifier sub = 0 ↔ ∃ rest : String, identifier = sub ++ rest := by
  have hpre : sub.toList.isPrefixOf identifier.toList = true ↔
      ∃ rest : String, identifier = sub ++ rest := by
    rw [List.isPrefixOf_iff_prefix]
    constructor
    · rintro ⟨t, ht⟩
      refine ⟨String.mk t, ?_⟩
      apply String.ext
      simpa [String.toList] using ht.symm
    · rintro ⟨rest, hrest⟩
      refine ⟨rest.toList, ?_⟩
      rw [hrest]
      simp [String.toList]
  rw [← hpre]
  have h0 := strings.indexFrom_eq_iff sub.toList identifier.toList 0
  unfold strings.Index
  exact_mod_cast h0

theorem AddRouter_keeps_reserved (s : Server) (identifier : String)
    (controller : PrtPackage → String) (k : String) (hk : ∃ rest : String, k = "prt-" ++ rest)
    (h : s.router.get k = none) : (AddRouter s identifier controller).1.router.get k = none := by
  by_cases hp : strings.Index identifier "prt-" = 0
  · simpa [AddRouter, hp] using h
  · have hne : k ≠ identifier := by
      intro heq
      subst heq
      exact hp ((strings.Index_eq_zero_iff k "prt-").2 hk)
    simp only [AddRouter, hp, if_false]
    rw [GoMap.get_set_ne _ _ _ _ hne]
    exact h

theorem AddRouter_all_keeps_reserved (calls : List (String × (PrtPackage → String)))
    (k : String) (hk : ∃ rest : String, k = "prt-" ++ rest) :
    ∀ s : Server, s.router.get k = none →
      (calls.foldl (fun st call => (AddRouter st call.1 call.2).1) s).router.get k = none := by
  induction calls with
  | nil =>
    intro s h
    simpa using h
  | cons call more ih =>
    intro s h
    simp only [List.foldl_cons]
    exact ih _ (AddRouter_keeps_reserved s call.1 call.2 k hk h)

/-- C5: `AddRouter` returns `false` exactly when the identifier begins with `prt-`,
and then leaves the server unchanged; otherwise it returns `true`, the router maps
the identifier to the given handler, every other identifier is looked up as before
and nothing but the router changes.  After `NewServer` and any sequence of
`AddRouter` calls the lookup of `prt-ack` finds no handler. -/
theorem AddRouter_reserved :
    (∀ (s : Server) (identifier : String) (controller : PrtPackage → String),
      ((AddRouter s identifier controller).2 = false ↔
        ∃ rest : String, identifier = "prt-" ++ rest) ∧
      ((∃ rest : String, identifier = "prt-" ++ rest) →
        AddRouter s identifier controller = (s, false)) ∧
      ((¬ ∃ rest : String, identifier = "prt-" ++ rest) →
        (AddRouter s identifier controller).2 = true ∧
        (AddRouter s identifier controller).1.router.get identifier = some controller ∧
        (∀ k, k ≠ identifier →
          (AddRouter s identifier controller).1.router.get k = s.router.get k) ∧
        (AddRouter s identifier controller).1.cdata = s.cdata ∧
        (AddRouter s identifier controller).1.sent = s.sent ∧
        (AddRouter s identifier controller).1.chanLog = s.chanLog)) ∧
    (∀ (port maxTime timeout : Int) (calls : List (String × (PrtPackage → String))),
      (calls.foldl (fun st call => (AddRouter st call.1 call.2).1)
        (NewServer port maxTime timeout)).router.get "prt-ack" = none) := by
  constructor
  · intro s identifier controller
    rw [← strings.Index_eq_zero_iff]
    by_cases hp : strings.Index identifier "prt-" = 0
    · simp [AddRouter, hp]
    · have hval : AddRouter s identifier controller =
          ({ s with router := s.router.set identifier controller }, true) := by
        simp [AddRouter, hp]
      rw [hval]
      refine ⟨by simp [hp], fun h => absurd h hp, fun _ => ?_⟩
      refine ⟨rfl, GoMap.get_set_self _ _ _, ?_, rfl, rfl, rfl⟩
      intro k hk
      exact GoMap.get_set_ne _ _ _ _ hk
  · intro port maxTime timeout calls
    exact AddRouter_all_keeps_reserved calls "prt-ack" ⟨"ack", by decide⟩ _ rfl

/-- Witness of C5: a reserved identifier is refused, a free one is accepted. -/
theorem AddRouter_reserved_witness :
    (AddRouter Sample.idle "prt-ack" Sample.pong).2 = false ∧
      (AddRouter Sample.idle "echo" Sample.pong).1.router.get "echo" = some Sample.pong :=
  ⟨((AddRouter_reserved.1 Sample.idle "prt-ack" Sample.pong).1).2 ⟨"ack", by decide⟩,
    ((AddRouter_reserved.1 Sample.idle "echo" Sample.pong).2.2
      (by rw [← strings.Index_eq_zero_iff]; decide)).2.1⟩

/-! ## Outbound calls and the size limit -/

/-- C6 (amended): when the encoded message is longer than `MAX_TRANSMIT_SIZE`, `Tell`
returns `ErrContentOverflowed` with the server unchanged, for every session
argument; `Promise` on a session of the table, whose message carries the sequence
number `sequence` that `getSequence` returns, returns `ErrContentOverflowed` with
the transport log, the channels and the pending map of the session unchanged. -/
theorem overflow_sends_nothing (c : Codec) (s : Server) (session identifier body : String) :
    (((c.ToBytes ⟨session, identifier, -1, body⟩).length : Int) > c.MAX_TRANSMIT_SIZE →
      Tell c s session identifier body = .ok (s, some Error.ErrContentOverflowed)) ∧
    (∀ (cd : ClientData) (arrivals : List Inbound) (sequence : Int) (s1 : Server),
      s.cdata.get session = some cd →
      getSequence s session = .ok (sequence, s1) →
      ((c.ToBytes ⟨session, identifier, sequence, body⟩).length : Int) > c.MAX_TRANSMIT_SIZE →
      Promise c s session identifier body arrivals =
          .ok (s1, "", some Error.ErrContentOverflowed) ∧
        s1.sent = s.sent ∧ s1.chans = s.chans ∧ s1.chanLog = s.chanLog ∧
        s1.parked = s.parked ∧
        (∃ cd1, s1.cdata.get session = some cd1 ∧ cd1.SequenceBuff = cd.SequenceBuff) ∧
        ∀ S2, S2 ≠ session → s1.cdata.get S2 = s.cdata.get S2) := by
  constructor
  · intro h
    simp only [Tell]
    rw [if_pos h]
  · intro cd arrivals sequence s1 hS hseq h
    have hseq2 := hseq
    rw [getSequence_ok s session cd hS] at hseq2
    injection hseq2 with hpair
    injection hpair with h1 h2
    refine ⟨?_, ?_, ?_, ?_, ?_, ?_, ?_⟩
    · simp only [Promise, hseq]
      rw [if_pos h]
    · rw [← h2]
    · rw [← h2]
    · rw [← h2]
    · rw [← h2]
    · rw [← h2]
      exact ⟨_, GoMap.get_set_self _ _ _, rfl⟩
    · intro S2 hne
      rw [← h2]
      exact GoMap.get_set_ne _ _ _ _ hne

/-- Witness of C6 (amended): a body of seventy characters against the limit of 64
bytes, on the session `S`. -/
theorem overflow_sends_nothing_witness :
    Tell Wire.codec Sample.opened "S" "ping" Sample.long =
        .ok (Sample.opened, some Error.ErrContentOverflowed) ∧
      ∃ s1, getSequence Sample.opened "S" = .ok (0, s1) ∧
        Promise Wire.codec Sample.opened "S" "ping" Sample.long [] =
          .ok (s1, "", some Error.ErrContentOverflowed) ∧
        s1.sent = Sample.opened.sent :=
  ⟨(overflow_sends_nothing Wire.codec Sample.opened "S" "ping" Sample.long).1 (by decide),
    _, rfl,
    ((overflow_sends_nothing Wire.codec Sample.opened "S" "ping" Sample.long).2
      { Addr := Sample.peer, LastAccept := 0, Sequence := 0, SequenceBuff := [] } [] 0 _
      (by decide) rfl (by decide)).1,
    rfl⟩

/-- C6 fails as stated: for the session argument `ghost`, which is not in the
table, and a body whose encoding exceeds the limit, `Tell` returns
`ErrContentOverflowed` but `Promise` stops in `getSequence` with a nil pointer
dereference before it reaches the size test. -/
theorem Promise_overflow_unknown_session :
    Sample.idle.cdata.get "ghost" = none ∧
      ((Wire.codec.ToBytes ⟨"ghost", "ping", 0, Sample.long⟩).length : Int) >
        Wire.codec.MAX_TRANSMIT_SIZE ∧
      Tell Wire.codec Sample.idle "ghost" "ping" Sample.long =
        .ok (Sample.idle, some Error.ErrContentOverflowed) ∧
      Promise Wire.codec Sample.idle "ghost" "ping" Sample.long [] = .error Stop.nilPointer :=
  ⟨by decide, by decide, rfl, rfl⟩

/-! ## Replies of `process` -/

theorem processAck_sent (s s1 : Server) (r : PrtPackage)
    (h : processAck s r id id = .ok s1) : s1.sent = s.sent := by
  rcases processAck_cases s s1 r h with h1 | ⟨cdr, ch, -, h1⟩
  · rw [h1]
  · rw [h1]

theorem dispatch_app (c : Codec) (s : Server) (m : PrtPackage) (sid : String) (cd : ClientData)
    (hack : m.Identifier ≠ "prt-ack") (hS : s.cdata.get sid = some cd) :
    ∃ s1, process.dispatch c s m sid = .ok s1 ∧
      (∀ f, s.router.get m.Identifier = some f → f m ≠ "" →
        s1.sent = s.sent ++ [(c.ToBytes ⟨sid, "prt-ack", m.sequence, f m⟩, cd.Addr)]) ∧
      ((∀ f, s.router.get m.Identifier = some f → f m = "") → s1.sent = s.sent) ∧
      s1.cdata = s.cdata := by
  cases hr : s.router.get m.Identifier with
  | none =>
    refine ⟨s, by simp [process.dispatch, hack, hr], ?_, fun _ => rfl, rfl⟩
    intro f hf
    cases hf
  | some g =>
    by_cases hresp : g m = ""
    · refine ⟨s, by simp [process.dispatch, hack, hr, hresp], ?_, fun _ => rfl, rfl⟩
      intro f hf hne
      cases hf
      exact absurd hresp hne
    · refine ⟨{ s with
          sent := s.sent ++ [(c.ToBytes ⟨sid, "prt-ack", m.sequence, g m⟩, cd.Addr)] },
        by simp only [process.dispatch, hack, hr, hresp, hS, if_false], ?_, ?_, rfl⟩
      · intro f hf _
        cases hf
        rfl
      · intro hall
        exact absurd (hall g rfl) hresp

/-- C7: for a decoded message `m` that is not an acknowledgment and whose active
session `sid` exists (the session named by `m`, or the one `process` has just
created for an empty session field), `process` returns; it appends exactly one
datagram to the transport log when a handler `f` is registered for the identifier
of `m` and `f m` is not empty, namely the encoding of
`(sid, "prt-ack", m.sequence, f m)` addressed to the stored address of `sid`, and
appends nothing otherwise.  For an acknowledgment the transport log is unchanged. -/
theorem process_reply (c : Codec) (s : Server) (addr : UDPAddr) (recv : Bytes) (now : Int)
    (tokens : List String) (m : PrtPackage) (hm : c.CastToPrtPackage recv = some m) :
    (m.Identifier = "prt-ack" →
      ∀ s1, process c s addr recv now tokens = .ok s1 → s1.sent = s.sent) ∧
    (m.Identifier ≠ "prt-ack" →
      ∀ (sid : String) (dest : UDPAddr),
        ((m.Session ≠ "" ∧ sid = m.Session ∧ ∃ cd, s.cdata.get sid = some cd ∧ cd.Addr = dest) ∨
          (m.Session = "" ∧ GenerateSession s tokens = .ok sid ∧ dest = addr)) →
        ∃ s1, process c s addr recv now tokens = .ok s1 ∧
          (∀ f, s.router.get m.Identifier = some f → f m ≠ "" →
            s1.sent = s.sent ++ [(c.ToBytes ⟨sid, "prt-ack", m.sequence, f m⟩, dest)]) ∧
          ((∀ f, s.router.get m.Identifier = some f → f m = "") → s1.sent = s.sent)) := by
  constructor
  · intro hack s1 h
    by_cases hE : m.Session = ""
    · cases hg : GenerateSession s tokens with
      | error e => simp [process, hm, hE, hg] at h
      | ok sid =>
        simp only [process, hm, hE, hg, if_true, process.dispatch, hack] at h
        have hsent := processAck_sent _ s1 m h
        exact hsent
    · simp only [process, hm, hE, if_false, process.dispatch, hack, if_true] at h
      exact processAck_sent _ s1 m h
  · intro hack sid dest hact
    rcases hact with ⟨hE, hsid, cd, hS, hto⟩ | ⟨hE, hg, hto⟩
    · subst hsid
      obtain ⟨s1, h1, h2, h3, -⟩ := dispatch_app c s m m.Session cd hack hS
      refine ⟨s1, by simp only [process, hm, hE, if_false]; exact h1, ?_, h3⟩
      rw [← hto]
      exact h2
    · obtain ⟨s1, h1, h2, h3, -⟩ := dispatch_app c
        { s with
          cdata := s.cdata.set sid
            { Addr := addr, LastAccept := now, Sequence := 0, SequenceBuff := [] } }
        m sid { Addr := addr, LastAccept := now, Sequence := 0, SequenceBuff := [] }
        hack (GoMap.get_set_self _ _ _)
      refine ⟨s1, by simp only [process, hm, hE, hg, if_true]; exact h1, ?_, h3⟩
      rw [hto]
      exact h2

/-- Witness of C7: the first datagram `ping` of a peer is answered by one
acknowledgment carrying the new session `S`, the sequence number of the request
and the body `pong`. -/
theorem process_reply_witness :
    Wire.codec.CastToPrtPackage (Wire.codec.ToBytes Sample.hello) = some Sample.hello ∧
      ∃ s1, process Wire.codec Sample.idle Sample.peer (Wire.codec.ToBytes Sample.hello) 3 ["S"] =
          .ok s1 ∧
        s1.sent = [(Wire.codec.ToBytes ⟨"S", "prt-ack", 4, "pong"⟩, Sample.peer)] :=
  ⟨by decide, by
    obtain ⟨s1, h1, h2, -⟩ :=
      (process_reply Wire.codec Sample.idle Sample.peer (Wire.codec.ToBytes Sample.hello) 3 ["S"]
        Sample.hello (by decide)).2 (by decide) "S" Sample.peer
        (Or.inr ⟨by decide, rfl, rfl⟩)
    exact ⟨s1, h1, h2 Sample.pong rfl (by decide)⟩⟩


/-! ## Idle sweep (`GC`) -/

theorem GC.visit_get (maxLifeTime nowTime : Int) (m : GoMap String ClientData) (k0 k : String) :
    (GC.visit maxLifeTime nowTime m k0).get k =
      if k = k0 then
        (m.get k).bind
          (fun cd => if wrap64 (nowTime - cd.LastAccept) ≥ maxLifeTime then none else some cd)
      else m.get k := by
  unfold GC.visit
  cases h0 : m.get k0 with
  | none =>
    by_cases hk : k = k0
    · subst hk
      simp [h0]
    · simp [hk]
  | some v =>
    by_cases hold : wrap64 (nowTime - v.LastAccept) ≥ maxLifeTime
    · by_cases hk : k = k0
      · subst hk
        simp [h0, hold, GoMap.get_delete_self]
      · simp [hold, hk, GoMap.get_delete_ne _ _ _ hk]
    · by_cases hk : k = k0
      · subst hk
        simp [h0, hold]
      · simp [hold, hk]

theorem GC.fold_get (maxLifeTime nowTime : Int) (keys : List String) (k : String) :
    ∀ m : GoMap String ClientData,
      (keys.foldl (GC.visit maxLifeTime nowTime) m).get k =
        if k ∈ keys then
          (m.get k).bind
            (fun cd => if wrap64 (nowTime - cd.LastAccept) ≥ maxLifeTime then none else some cd)
        else m.get k := by
  induction keys with
  | nil =>
    intro m
    simp
  | cons k0 more ih =>
    intro m
    simp only [List.foldl_cons, ih, GC.visit_get, List.mem_cons]
    by_cases hk : k = k0
    · subst hk
      cases hget : m.get k with
      | none =>
        by_cases hin : k ∈ more
        · simp [hin]
        · simp [hin]
      | some cd =>
        by_cases hold : wrap64 (nowTime - cd.LastAccept) ≥ maxLifeTime
        · by_cases hin : k ∈ more
          · simp [hin, hold]
          · simp [hin, hold]
        · by_cases hin : k ∈ more
          · simp [hin, hold]
          · simp [hin, hold]
    · by_cases hin : k ∈ more
      · simp [hk, hin]
      · simp [hk, hin]

theorem GC.sweep_get (s : Server) (nowTime : Int) (k : String) :
    (GC.sweep s nowTime).cdata.get k =
      (s.cdata.get k).bind
        (fun cd =>
          if wrap64 (nowTime - cd.LastAccept) ≥ s.maxLifeTime then none else some cd) := by
  simp only [GC.sweep, GC.fold_get]
  by_cases hin : k ∈ s.cdata.keys
  · simp [hin]
  · cases hget : s.cdata.get k with
    | none => simp
    | some cd => exact absurd (GoMap.mem_keys_of_get _ _ _ hget) hin

/-- C8 (amended): after one sweep at time `nowTime` the table holds exactly the
sessions whose 64 bit difference `nowTime - LastAccept` is below `maxLifeTime`,
each with the record it had before; for a session on which that subtraction does
not overflow, this is the test `nowTime - LastAccept < maxLifeTime`, and the
session is absent when `nowTime - LastAccept ≥ maxLifeTime`; nothing else in the
server changes. -/
theorem GC_sweep_exact (s : Server) (nowTime : Int) :
    (∀ k cd, (GC.sweep s nowTime).cdata.get k = some cd ↔
      (s.cdata.get k = some cd ∧ wrap64 (nowTime - cd.LastAccept) < s.maxLifeTime)) ∧
    (∀ k cd, s.cdata.get k = some cd → isInt64 (nowTime - cd.LastAccept) →
      ((GC.sweep s nowTime).cdata.get k = some cd ↔ nowTime - cd.LastAccept < s.maxLifeTime) ∧
      (nowTime - cd.LastAccept ≥ s.maxLifeTime → (GC.sweep s nowTime).cdata.get k = none)) ∧
    (GC.sweep s nowTime).router = s.router ∧ (GC.sweep s nowTime).sent = s.sent ∧
    (GC.sweep s nowTime).chanLog = s.chanLog ∧
    (GC.sweep s nowTime).maxLifeTime = s.maxLifeTime := by
  have hfirst : ∀ k cd, (GC.sweep s nowTime).cdata.get k = some cd ↔
      (s.cdata.get k = some cd ∧ wrap64 (nowTime - cd.LastAccept) < s.maxLifeTime) := by
    intro k cd
    rw [GC.sweep_get]
    cases hget : s.cdata.get k with
    | none => simp
    | some cd0 =>
      by_cases hold : wrap64 (nowTime - cd0.LastAccept) ≥ s.maxLifeTime
      · simp only [Option.some_bind, hold, if_true, Option.some.injEq]
        constructor
        · intro h
          cases h
        · rintro ⟨heq, hlt⟩
          subst heq
          omega
      · simp only [Option.some_bind, hold, if_false, Option.some.injEq]
        constructor
        · intro heq
          rw [← heq]
          exact ⟨rfl, by omega⟩
        · intro h
          exact h.1
  refine ⟨hfirst, ?_, rfl, rfl, rfl, rfl⟩
  intro k cd hget hrange
  have hw : wrap64 (nowTime - cd.LastAccept) = nowTime - cd.LastAccept := wrap64_eq _ hrange
  constructor
  · rw [hfirst, hw]
    exact ⟨fun h => h.2, fun h => ⟨hget, h⟩⟩
  · intro hold
    rw [GC.sweep_get, hget]
    simp [hw, hold]

/-- Witness of C8 (amended): at time `1000` the session idle since `0` goes, the
one active at `600` stays. -/
theorem GC_sweep_exact_witness :
    (GC.sweep Sample.two 1000).cdata.get "old" = none ∧
      (GC.sweep Sample.two 1000).cdata.get "new" =
        some { Addr := Sample.peer, LastAccept := 600, Sequence := 0, SequenceBuff := [] } :=
  ⟨((GC_sweep_exact Sample.two 1000).2.1 "old"
      { Addr := Sample.peer, LastAccept := 0, Sequence := 0, SequenceBuff := [] }
      (by decide) (by decide)).2 (by decide),
    ((GC_sweep_exact Sample.two 1000).1 "new"
      { Addr := Sample.peer, LastAccept := 600, Sequence := 0, SequenceBuff := [] }).2
      ⟨by decide, by decide⟩⟩

/-- C8 fails as stated: with `maxLifeTime = 1000`, a session whose `LastAccept` is
the least `int64` has `nowTime - LastAccept = 2^63 ≥ maxLifeTime` at time `0`, yet
the sweep keeps it, because the subtraction of line 220 wraps to `-2^63`. -/
theorem GC_sweep_wraps :
    Sample.ancient.maxLifeTime = 1000 ∧
      Sample.ancient.cdata.get "S" =
        some { Addr := Sample.peer, LastAccept := -9223372036854775808, Sequence := 0,
               SequenceBuff := [] } ∧
      (0 : Int) - (-9223372036854775808) ≥ 1000 ∧
      (GC.sweep Sample.ancient 0).cdata.get "S" =
        some { Addr := Sample.peer, LastAccept := -9223372036854775808, Sequence := 0,
               SequenceBuff := [] } :=
  ⟨rfl, by decide, by decide, by decide⟩

/-! ## Last activity -/

/-- A datagram that names an existing session leaves the `LastAccept` of that
session as it was, whenever `process` returns. -/
theorem process_keeps_LastAccept (c : Codec) (s s1 : Server) (addr : UDPAddr) (recv : Bytes)
    (now : Int) (tokens : List String) (m : PrtPackage) (cd : ClientData)
    (hm : c.CastToPrtPackage recv = some m) (hne : m.Session ≠ "")
    (hS : s.cdata.get m.Session = some cd)
    (h : process c s addr recv now tokens = .ok s1) :
    ∃ cd1, s1.cdata.get m.Session = some cd1 ∧ cd1.LastAccept = cd.LastAccept := by
  simp only [process, hm, hne, if_false] at h
  obtain ⟨cd1, hget, -, hlast, -⟩ := dispatch_keeps c s s1 m m.Session h m.Session cd hS
  exact ⟨cd1, hget, hlast⟩

/-- C9 fails on the code: the session `S` was created at time `0` with
`maxLifeTime = 1000`; a message for `S` received at time `900` leaves `LastAccept`
at `0`, not `900`, and the sweep at time `1000`, one hundred microseconds after
that message, removes `S`. -/
theorem process_no_touch :
    Wire.codec.CastToPrtPackage (Wire.ToBytes Sample.again) = some Sample.again ∧
    (Sample.opened.cdata.get "S").map ClientData.LastAccept = some 0 ∧
    ∃ s1, process Wire.codec Sample.opened Sample.peer (Wire.ToBytes Sample.again) 900 [] =
        .ok s1 ∧
      (s1.cdata.get "S").map ClientData.LastAccept = some 0 ∧
      (s1.cdata.get "S").map ClientData.LastAccept ≠ some 900 ∧
      s1.maxLifeTime = 1000 ∧
      (GC.sweep s1 1000).cdata.get "S" = none :=
  ⟨by decide, by decide, _, rfl, by decide, by decide, rfl, by decide⟩

/-! ## Unknown sessions -/

/-- An acknowledgment naming a session that is not in the table stops `process`
with a nil pointer dereference, in every server state. -/
theorem process_unknown_ack (c : Codec) (s : Server) (addr : UDPAddr) (recv : Bytes) (now : Int)
    (tokens : List String) (m : PrtPackage) (hm : c.CastToPrtPackage recv = some m)
    (hne : m.Session ≠ "") (hack : m.Identifier = "prt-ack")
    (hS : s.cdata.get m.Session = none) :
    process c s addr recv now tokens = .error Stop.nilPointer := by
  simp [process, hm, hne, process.dispatch, hack, processAck, hS]

/-- C2 fails on the code: on a server without sessions, an acknowledgment for the
unknown session `ghost`, a request `ping` for `ghost` (its handler answers `pong`),
and an acknowledgment with an empty session field each stop `process` with a nil
pointer dereference. -/
theorem process_unknown_session_faults :
    Wire.codec.CastToPrtPackage (Wire.ToBytes Sample.strayAck) = some Sample.strayAck ∧
    process Wire.codec Sample.idle Sample.peer (Wire.ToBytes Sample.strayAck) 0 [] =
      .error Stop.nilPointer ∧
    Wire.codec.CastToPrtPackage (Wire.ToBytes Sample.strayPing) = some Sample.strayPing ∧
    process Wire.codec Sample.idle Sample.peer (Wire.ToBytes Sample.strayPing) 0 [] =
      .error Stop.nilPointer ∧
    Wire.codec.CastToPrtPackage (Wire.ToBytes Sample.blankAck) = some Sample.blankAck ∧
    process Wire.codec Sample.idle Sample.peer (Wire.ToBytes Sample.blankAck) 0 ["S"] =
      .error Stop.nilPointer :=
  ⟨by decide, rfl, by decide, rfl, by decide, rfl⟩

/-! ## `Promise`: the key of the pending slot and the timeout -/

/-- A `Promise` on an existing session with counter `k < 2^63 - 1`, within the size
limit and with no datagram arriving before the timer fires: the request sent
carries `k`, the channel is stored under `k + 1`, and the call returns `ErrTimeout`
with that entry still in the pending map. -/
theorem Promise_unanswered (c : Codec) (s : Server) (session identifier body : String)
    (cd : ClientData) (hS : s.cdata.get session = some cd)
    (hk : isInt64 cd.Sequence) (hlt : cd.Sequence < 9223372036854775807)
    (hsize : ¬ ((c.ToBytes ⟨session, identifier, cd.Sequence, body⟩).length : Int) >
      c.MAX_TRANSMIT_SIZE) :
    ∃ s1, Promise c s session identifier body [] = .ok (s1, "", some Error.ErrTimeout) ∧
      s1.sent = s.sent ++ [(c.ToBytes ⟨session, identifier, cd.Sequence, body⟩, cd.Addr)] ∧
      s1.cdata.get session =
        some { cd with
               Sequence := cd.Sequence + 1
               SequenceBuff := cd.SequenceBuff.set (cd.Sequence + 1) s.chans } ∧
      (cd.SequenceBuff.set (cd.Sequence + 1) s.chans).get (cd.Sequence + 1) = some s.chans ∧
      (cd.SequenceBuff.set (cd.Sequence + 1) s.chans).get cd.Sequence =
        cd.SequenceBuff.get cd.Sequence := by
  have hw : wrap64 (cd.Sequence + 1) = cd.Sequence + 1 := by
    apply wrap64_eq
    unfold isInt64 at hk ⊢
    omega
  have hr : wrap64 (cd.Sequence + 1 - 1) = cd.Sequence := by
    rw [Int.add_sub_cancel]
    exact wrap64_eq _ hk
  refine ⟨{ s with
      sent := s.sent ++ [(c.ToBytes ⟨session, identifier, cd.Sequence, body⟩, cd.Addr)]
      chans := s.chans + 1
      parked := s.parked ++ [s.chans]
      cdata := (s.cdata.set session { cd with Sequence := cd.Sequence + 1 }).set session
        { cd with
          Sequence := cd.Sequence + 1
          SequenceBuff := cd.SequenceBuff.set (cd.Sequence + 1) s.chans } },
    ?_, rfl, GoMap.get_set_self _ _ _, GoMap.get_set_self _ _ _, ?_⟩
  · simp only [Promise, getSequence_ok s session cd hS, hw, hr]
    rw [if_neg hsize]
    simp only [GoMap.get_set_self, Promise.wait, Promise.waiter, Option.toList]
  · apply GoMap.get_set_ne
    omega

/-- The acknowledgment of a `Promise` does not reach it: on an existing session
with counter `k < 2^63 - 1` and no older slot under `k`, the acknowledgment for `k`
that arrives while the call waits is dropped by `processAck` and the call times
out. -/
theorem Promise_ack_unmatched (c : Codec) (s : Server) (session identifier body : String)
    (cd : ClientData) (a : Inbound) (r : PrtPackage)
    (hS : s.cdata.get session = some cd)
    (hk : isInt64 cd.Sequence) (hlt : cd.Sequence < 9223372036854775807)
    (hsize : ¬ ((c.ToBytes ⟨session, identifier, cd.Sequence, body⟩).length : Int) >
      c.MAX_TRANSMIT_SIZE)
    (hraw : c.CastToPrtPackage a.recv = some r) (hne : session ≠ "")
    (hrs : r.Session = session) (hri : r.Identifier = "prt-ack") (hrq : r.sequence = cd.Sequence)
    (hno : cd.SequenceBuff.get cd.Sequence = none)
    (hfresh : received s.chanLog s.chans = none) :
    ∃ s1, Promise c s session identifier body [a] = .ok (s1, "", some Error.ErrTimeout) ∧
      s1.chanLog = s.chanLog := by
  subst hrs
  have hw : wrap64 (cd.Sequence + 1) = cd.Sequence + 1 := by
    apply wrap64_eq
    unfold isInt64 at hk ⊢
    omega
  have hr : wrap64 (cd.Sequence + 1 - 1) = cd.Sequence := by
    rw [Int.add_sub_cancel]
    exact wrap64_eq _ hk
  have hkey : cd.Sequence ≠ cd.Sequence + 1 := by omega
  have hp : ∀ s2 : Server,
      s2.cdata.get r.Session =
        some { cd with
               Sequence := cd.Sequence + 1
               SequenceBuff := cd.SequenceBuff.set (cd.Sequence + 1) s.chans } →
      process c s2 a.addr a.recv a.now a.tokens = .ok s2 := by
    intro s2 h2
    simp only [process, hraw, hne, if_false, process.dispatch, hri, if_true, processAck, h2, hrq,
      GoMap.get_set_ne _ _ _ _ hkey, hno]
  refine ⟨{ s with
      sent := s.sent ++ [(c.ToBytes ⟨r.Session, identifier, cd.Sequence, body⟩, cd.Addr)]
      chans := s.chans + 1
      parked := s.parked ++ [s.chans]
      cdata := (s.cdata.set r.Session { cd with Sequence := cd.Sequence + 1 }).set r.Session
        { cd with
          Sequence := cd.Sequence + 1
          SequenceBuff := cd.SequenceBuff.set (cd.Sequence + 1) s.chans } }, ?_, rfl⟩
  simp only [Promise, getSequence_ok s r.Session cd hS, hw, hr]
  rw [if_neg hsize]
  simp only [GoMap.get_set_self, Promise.wait, Promise.waiter, Option.toList]
  rw [hp _ (GoMap.get_set_self _ _ _)]
  simp only [Option.bind, hfresh, Promise.wait]

/-- C1 fails on the code: on the session `S` with counter `0`, `Promise` sends the
request with sequence number `0` and stores its channel under the key `1`; the
acknowledgment for `(S, 0)` is processed while the call waits, finds no slot, is
sent on no channel, and the call returns `ErrTimeout` instead of the body `pong`. -/
theorem Promise_slot_key_off_by_one :
    Wire.codec.CastToPrtPackage Sample.ackArrival.recv = some Sample.ack ∧
    ∃ s1, Promise Wire.codec Sample.opened "S" "ping" "hi" [Sample.ackArrival] =
        .ok (s1, "", some Error.ErrTimeout) ∧
      s1.sent = [(Wire.ToBytes ⟨"S", "ping", 0, "hi"⟩, Sample.peer)] ∧
      s1.cdata.get "S" =
        some { Addr := Sample.peer, LastAccept := 0, Sequence := 1, SequenceBuff := [(1, 0)] } ∧
      s1.chanLog = [] :=
  ⟨by decide, _, rfl, by decide, by decide, by decide⟩

/-- C10 fails on the code: on the session `S`, whose pending map is empty, a
`Promise` that nobody answers returns `ErrTimeout` and leaves the entry it has
registered (key `1`, channel `0`) in the pending map. -/
theorem Promise_timeout_leaves_slot :
    (Sample.opened.cdata.get "S").map ClientData.SequenceBuff = some [] ∧
    ∃ s1, Promise Wire.codec Sample.opened "S" "ping" "hi" [] =
        .ok (s1, "", some Error.ErrTimeout) ∧
      (s1.cdata.get "S").map ClientData.SequenceBuff = some [(1, 0)] :=
  ⟨by decide, _, rfl, by decide⟩


end Pyrite
